import Mathlib

/-!
# Verification of the ffmpeg video-concatenation server

A shallow embedding of the `/concatenate` pipeline of the server of this
repository (the main revision `src/server.js`, together with the two
alternative revisions shipped in the repository, referred to below as
`Rev1` = `src/unnamed/part_001` and `Rev2` = `src/unnamed/part_002`).

External effects (downloads, `ffprobe`, `ffmpeg` invocations, uploads)
are modelled by oracles packaged in an `Env` structure: each oracle
reports the outcome the external world would give for that command.
The handler itself is embedded as a pure function from the request and
the environment to a `JobResult` that records the HTTP-level response,
the ordered trace of external commands executed, whether the scratch
directory still exists afterwards, and the data fed to the video
concatenator.
-/

namespace FfmpegServer

/-- Target dimensions (the `targetDimensions` object of `server.js`). -/
structure TargetDimensions where
  width : Nat
  height : Nat
deriving DecidableEq, Repr

/-- The data carried by a successful `validateVideoFile` result
(`isValid: true` branch): codec name, dimensions and the textual
frame-rate expression reported by ffprobe (`r_frame_rate`).  `fps` is an
`Option` because ffprobe may omit the field (the JS code guards with a
truthiness test `fps && ...`). -/
structure ValidationData where
  codec : String
  width : Nat
  height : Nat
  fps : Option String
deriving DecidableEq, Repr

/-- Result of `validateVideoFile`: either the stream data, or a failure
reason (the function never throws; it returns `isValid: false`). -/
inductive ValidationResult
  | valid (data : ValidationData)
  | invalid (error : String)
deriving DecidableEq, Repr

/-- The string keys a bracket lookup on an object literal finds on the
prototype chain: the own property names of `Object.prototype` in Node
18 (all of them functions, hence truthy) together with the `__proto__`
accessor (which yields the truthy `Object.prototype` object itself). -/
def objectPrototypeKeys : List String :=
  ["constructor", "hasOwnProperty", "isPrototypeOf", "propertyIsEnumerable",
   "toLocaleString", "toString", "valueOf", "__defineGetter__",
   "__defineSetter__", "__lookupGetter__", "__lookupSetter__", "__proto__"]

/-- What `formatDimensions[format] || formatDimensions["9:16"]` can
evaluate to: one of the width/height profiles (an own entry or the 9:16
fallback), or a truthy member inherited from `Object.prototype` — in
the latter case the `||` fallback does not fire and the "target" is not
a profile at all (its `width`/`height` read as `undefined`). -/
inductive TargetLookup
  | profile (dims : TargetDimensions)
  | prototypeMember (key : String)
deriving DecidableEq, Repr

/-- The lookup `formatDimensions[format]`, with the 9:16 entry as the
`||` fallback, of the `/concatenate` handler.  JS bracket lookup walks
the prototype chain: the three own keys yield their profiles; a key
naming an `Object.prototype` member yields that truthy inherited value
(so no fallback); any other key — including a missing `format`, whose
lookup key is the absent string "undefined" — yields `undefined`,
which is falsy, so the expression falls back to the 9:16 profile. -/
def formatDimensions (format : Option String) : TargetLookup :=
  match format with
  | some "9:16" => .profile ⟨1080, 1920⟩
  | some "1:1" => .profile ⟨1080, 1080⟩
  | some "16:9" => .profile ⟨1920, 1080⟩
  | some f =>
    if f ∈ objectPrototypeKeys then .prototypeMember f
    else .profile ⟨1080, 1920⟩
  | none => .profile ⟨1080, 1920⟩

/-- Embedding of `shouldNormalizeVideo` from `src/server.js` (lines 165-183).
Returns `true` when a re-encode is needed and `false` when the
fast-path (stream copy) may be used.  The fast path is allowed when the
codec is h264, the dimensions equal those of the target, and the frame-rate
expression is one of `"30/1"`, `"30"`, `"60/1"`. -/
def shouldNormalizeVideo (v : ValidationData) (t : TargetDimensions) : Bool :=
  let isCorrectCodec := v.codec == "h264"
  let isCorrectWidth := v.width == t.width
  let isCorrectHeight := v.height == t.height
  let isCorrectFps :=
    match v.fps with
    | some f => f == "30/1" || f == "30" || f == "60/1"
    | none => false
  let canSkipNormalization :=
    isCorrectCodec && isCorrectWidth && isCorrectHeight && isCorrectFps
  !canSkipNormalization

/-- Embedding of `shouldNormalizeVideo` from the `Rev1` revision
(`src/unnamed/part_001`, lines 86-93): same shape, but the tolerated
frame-rate set is only `"30/1"`, `"30"` (no `"60/1"`). -/
def shouldNormalizeVideoRev1 (v : ValidationData) (t : TargetDimensions) : Bool :=
  !((v.codec == "h264") && (v.width == t.width) && (v.height == t.height) &&
    (match v.fps with
     | some f => f == "30/1" || f == "30"
     | none => false))

/-- Modelled from the spec: the canonical target frame rate of the
profile is 30 fps (the normalizer forces `-r 30`), and per the spec the
exact textual representations of that rate are `"30/1"` and `"30"`.
Used only to compare the classifier against the wording of the spec,
"frame-rate matches the target exactly". -/
def specFpsMatchesTargetExactly (fps : Option String) : Bool :=
  fps == some "30/1" || fps == some "30"

/-- One tier of the 3-level fallback strategy of
`normalizeVideoWithRetries` (`src/server.js` lines 228-247). -/
structure NormalizationAttempt where
  name : String
  preset : String
  crf : Nat
  extraFilters : String
deriving DecidableEq, Repr

/-- The `attempts` array of `normalizeVideoWithRetries`. -/
def normalizationAttempts : List NormalizationAttempt :=
  [⟨"Normalização Rápida", "fast", 23, ""⟩,
   ⟨"Normalização Robusta", "medium", 25, ",format=yuv420p"⟩,
   ⟨"Re-encode Total Forçado", "slow", 28, ",format=yuv420p,setpts=PTS-STARTPTS"⟩]

/-- External commands issued by the `/concatenate` handler, in the
order they are executed.  A command appears in the trace whether or not
it succeeded (the subprocess was spawned either way). -/
inductive Event
  | download (i : Nat)
  | probe (i : Nat)
  | audioExtract (i : Nat)
  | audioConcat
  | fastCopy (i : Nat)
  | normalize (i : Nat) (tier : Nat)
  | videoConcat
  | compress (attempt : Nat) (crf : Nat)
  | mux
  | upload
deriving DecidableEq, Repr

/-- Events belonging to the ingest phase (download + ffprobe): the only
commands that may run before the validation gate has passed. -/
def Event.isIngest : Event → Bool
  | .download _ => true
  | .probe _ => true
  | _ => false

/-- Events that invoke the transcoding engine (anything past the
validation gate except the upload). -/
def Event.isTranscode : Event → Bool
  | .audioExtract _ => true
  | .audioConcat => true
  | .fastCopy _ => true
  | .normalize _ _ => true
  | .videoConcat => true
  | .compress _ _ => true
  | .mux => true
  | _ => false

/-- Outcome oracles for the external world.  Each field answers "what
would this external command do?"; the handler embedding consults them
in execution order.  `enc attempt inputSize` gives the size in bytes of
the output of the compression attempt, or `none` if the encode fails. -/
structure Env where
  downloadOk : Nat → Bool
  validation : Nat → ValidationResult
  audioExtractOk : Nat → Bool
  audioConcatOk : Bool
  fastCopyOk : Nat → Bool
  tierOk : Nat → Nat → Bool
  concatOk : Bool
  videoOnlySize : Nat
  enc : Nat → Nat → Option Nat
  muxOk : Bool
  muxedSize : Nat
  uploadOk : Bool

/-- Job-level errors surfaced by the handler: the early 400 rejection
("Needs at least 2 video URLs") versus a 500 pipeline failure. -/
inductive JobError
  | badRequest
  | pipeline (msg : String)
deriving DecidableEq, Repr

/-- The loop body of `normalizeVideoWithRetries`, over the remaining tiers: try each
tier in order; a failed tier that is not the last continues with the
next tier; a failed last tier throws.  Returns the trace of
`normalize` commands issued and the name of the successful tier (or the
final error). -/
def normalizeGo (tierOk : Nat → Bool) (i : Nat) :
    Nat → List NormalizationAttempt → List Event × Except String String
  | _, [] => ([], .error "no attempts")
  | t, a :: rest =>
    if tierOk t then ([.normalize i t], .ok a.name)
    else
      match rest with
      | [] => ([.normalize i t],
          .error "Todas as 3 tentativas de normalização falharam")
      | _ :: _ =>
        let r := normalizeGo tierOk i (t + 1) rest
        (.normalize i t :: r.1, r.2)

/-- The function `normalizeVideoWithRetries` applied to video `i`, with the three-tier
`attempts` table of the source. -/
def normalizeVideoWithRetries (tierOk : Nat → Bool) (i : Nat) :
    List Event × Except String String :=
  normalizeGo tierOk i 0 normalizationAttempts

/-- One iteration of the ETAPA 2 loop body for video `i`: decide via
`shouldNormalizeVideo`, then either re-encode, or try the fast copy and
fall back to the full cascade if it fails (`src/server.js` lines
461-519). -/
def processOneVideo (env : Env) (t : TargetDimensions)
    (v : ValidationData) (i : Nat) : List Event × Except String String :=
  if shouldNormalizeVideo v t then
    normalizeVideoWithRetries (env.tierOk i) i
  else if env.fastCopyOk i then
    ([.fastCopy i], .ok "Fast Stream Copy")
  else
    let r := normalizeVideoWithRetries (env.tierOk i) i
    (.fastCopy i :: r.1, r.2)

/-- The ETAPA 2 loop body as executed on the raw lookup result.  With a
real profile the classifier and fast-copy logic run as usual.  With an
inherited `Object.prototype` member as the "target", its `width` and
`height` read as `undefined`, so the strict equality checks of
`shouldNormalizeVideo` are false, `canSkipNormalization` is false, and
the video goes unconditionally into the normalization cascade. -/
def processOneVideoJs (env : Env) (t : TargetLookup)
    (v : ValidationData) (i : Nat) : List Event × Except String String :=
  match t with
  | .profile dims => processOneVideo env dims v i
  | .prototypeMember _ => normalizeVideoWithRetries (env.tierOk i) i

/-- The ETAPA 2 loop over all videos: each successfully processed video
appends its output `normalized-i.mp4` (represented by its index) to
`normalizedFiles`; an error aborts the loop and the job. -/
def processVideosGo (env : Env) (t : TargetLookup) :
    List (Nat × ValidationData) → List Event × Except String (List Nat)
  | [] => ([], .ok [])
  | (i, v) :: rest =>
    let p := processOneVideoJs env t v i
    match p.2 with
    | .error e => (p.1, .error e)
    | .ok _ =>
      let q := processVideosGo env t rest
      (p.1 ++ q.1, q.2.map (i :: ·))

/-- The hard size ceiling: `MAX_SIZE_MB = 49`.  The JS code compares
`size / 1024 / 1024 > 49` on IEEE doubles; division by `2^20` and the
comparison against 49 are exact there, so the comparison is equivalent
to `size > 49 * 2^20` on byte counts. -/
def MAX_SIZE_BYTES : Nat := 49 * 1024 * 1024

/-- The constant `MAX_CRF = 35`: CRF ceiling of the compression loop. -/
def MAX_CRF : Nat := 35

/-- The constant `MAX_ATTEMPTS = 4`: iteration bound of the compression loop. -/
def MAX_ATTEMPTS : Nat := 4

/-- First-attempt CRF choice: coarse buckets keyed on how far the
current size is over the ceiling (`compressionRatio > 3 / > 2 / > 1.5`,
rewritten over byte counts; `ratio > 1.5` iff `2*size > 3*ceiling`). -/
def chooseCrfFirst (size : Nat) : Nat :=
  if 3 * MAX_SIZE_BYTES < size then 32
  else if 2 * MAX_SIZE_BYTES < size then 30
  else if 3 * MAX_SIZE_BYTES < 2 * size then 28
  else 25

/-- Trace record of one compression-loop iteration: the attempt number
and CRF used, the recorded working size and working-file id before and
after, and the encode outcome (`some newSize` or `none` on failure). -/
structure CompressAttemptRec where
  attempt : Nat
  crf : Nat
  sizeBefore : Nat
  sizeAfter : Nat
  workingBefore : Nat
  workingAfter : Nat
  result : Option Nat
deriving DecidableEq, Repr

/-- Final state of the compression loop: the iteration trace, the final
recorded size, the working-file id (0 = the original `video-only` file,
`k` = `compressed_k_...`), the final CRF variable and attempt counter. -/
structure CompressResult where
  attempts : List CompressAttemptRec
  finalSize : Nat
  finalWorking : Nat
  finalCrf : Nat
  finalAttempt : Nat
deriving DecidableEq, Repr

/-- The compression `while` loop of `src/server.js` (lines 582-658),
one constructor call per iteration.  `fuel` is `MAX_ATTEMPTS - attempt`
so the `attempt < MAX_ATTEMPTS` guard is `fuel ≠ 0`.  A failed encode
(`enc` returns `none`) continues without touching the working file or
recorded size; a successful encode replaces both unconditionally. -/
def compressLoopGo (enc : Nat → Nat → Option Nat) :
    Nat → Nat → Nat → Nat → Nat → CompressResult
  | size, crf, attempt, working, 0 =>
    ⟨[], size, working, crf, attempt⟩
  | size, crf, attempt, working, fuel + 1 =>
    if size ≤ MAX_SIZE_BYTES then ⟨[], size, working, crf, attempt⟩
    else if MAX_CRF < crf then ⟨[], size, working, crf, attempt⟩
    else
      let a := attempt + 1
      let c := if a = 1 then chooseCrfFirst size else min (crf + 3) MAX_CRF
      match enc a size with
      | none =>
        let rest := compressLoopGo enc size c a working fuel
        ⟨⟨a, c, size, size, working, working, none⟩ :: rest.attempts,
         rest.finalSize, rest.finalWorking, rest.finalCrf, rest.finalAttempt⟩
      | some newSize =>
        let rest := compressLoopGo enc newSize c a a fuel
        ⟨⟨a, c, size, newSize, working, a, some newSize⟩ :: rest.attempts,
         rest.finalSize, rest.finalWorking, rest.finalCrf, rest.finalAttempt⟩

/-- The whole compression stage: the loop runs only when the
concatenated video-only artifact is over the ceiling, starting from
`currentCrf = 23`, `compressionAttempt = 0`, working file = original. -/
def compressStage (enc : Nat → Nat → Option Nat) (size0 : Nat) : CompressResult :=
  if MAX_SIZE_BYTES < size0 then compressLoopGo enc size0 23 0 0 MAX_ATTEMPTS
  else ⟨[], size0, 0, 23, 0⟩

/-- Result of one `/concatenate` request: the response (success url or
error), the ordered trace of external commands, whether the scratch
directory was removed, whether the post-compression oversize warning
was recorded, and the list of files fed to the video concatenator
(present as soon as the concat command was issued). -/
structure JobResult where
  response : Except JobError String
  events : List Event
  tempDirRemoved : Bool
  warningOversized : Bool
  concatInput : Option (List Nat)
deriving Repr

/-- A fatal pipeline error before the concatenator ran: the catch block
removes the scratch directory and responds 500. -/
def failJob (evs : List Event) (msg : String) : JobResult :=
  ⟨.error (.pipeline msg), evs, true, false, none⟩

/-- The download loop: fetch each URL in order; a failed fetch throws. -/
def downloadGo (dl : Nat → Bool) : List Nat → List Event × Except String Unit
  | [] => ([], .ok ())
  | i :: rest =>
    if dl i then
      let r := downloadGo dl rest
      (.download i :: r.1, r.2)
    else ([.download i], .error "Failed to download video")

/-- The ETAPA 1 validation loop: probe each file in order, collecting
the validation data; the first invalid file throws immediately. -/
def validateGo (val : Nat → ValidationResult) :
    List Nat → List Event × Except String (List ValidationData)
  | [] => ([], .ok [])
  | i :: rest =>
    match val i with
    | .invalid err =>
      ([.probe i], .error ("Vídeo está corrompido ou inválido: " ++ err))
    | .valid d =>
      let r := validateGo val rest
      (.probe i :: r.1, r.2.map (d :: ·))

/-- The ETAPA 1.5 audio extraction loop: extract the audio of each input in
order; a failed extraction throws. -/
def audioExtractGo (ok : Nat → Bool) : List Nat → List Event × Except String Unit
  | [] => ([], .ok ())
  | i :: rest =>
    if ok i then
      let r := audioExtractGo ok rest
      (.audioExtract i :: r.1, r.2)
    else ([.audioExtract i], .error "Falha ao extrair áudio do vídeo")

/-- The request body fields of `/concatenate` used by the pipeline. -/
structure ConcatRequest where
  videoUrls : List String
  outputFilename : String
  format : Option String

/-- The `/concatenate` handler (`src/server.js` lines 324-814) as a
pure function of the request and the external-world oracles.  Stages in
source order: the `videoUrls.length < 2` rejection, downloads, the
ETAPA 1 validation gate, ETAPA 1.5 audio extraction + concatenation,
the ETAPA 2 per-video normalization/fast-copy loop, the ETAPA 3 video
concatenation, the iterative compression stage, the ETAPA 4 mux, and
the upload.  Any thrown error lands in the catch block, which removes
the scratch directory and responds 500; the success path also removes
the scratch directory after the upload. -/
def runJob (env : Env) (req : ConcatRequest) : JobResult :=
  if req.videoUrls.length < 2 then
    ⟨.error .badRequest, [], false, false, none⟩
  else
    let n := req.videoUrls.length
    let target := formatDimensions req.format
    let dl := downloadGo env.downloadOk (List.range n)
    match dl.2 with
    | .error e => failJob dl.1 e
    | .ok _ =>
      let va := validateGo env.validation (List.range n)
      match va.2 with
      | .error e => failJob (dl.1 ++ va.1) e
      | .ok vals =>
        let ax := audioExtractGo env.audioExtractOk (List.range n)
        match ax.2 with
        | .error e => failJob (dl.1 ++ va.1 ++ ax.1) e
        | .ok _ =>
          if env.audioConcatOk then
            let evs0 := dl.1 ++ va.1 ++ ax.1 ++ [.audioConcat]
            let pv := processVideosGo env target ((List.range n).zip vals)
            match pv.2 with
            | .error e => failJob (evs0 ++ pv.1) e
            | .ok idxs =>
              let evs1 := evs0 ++ pv.1 ++ [.videoConcat]
              if env.concatOk && decide (1000 ≤ env.videoOnlySize) then
                let comp := compressStage env.enc env.videoOnlySize
                let warning := decide (MAX_SIZE_BYTES < env.videoOnlySize) &&
                  decide (MAX_SIZE_BYTES < comp.finalSize)
                let evs2 := evs1 ++
                  comp.attempts.map (fun r => Event.compress r.attempt r.crf)
                if env.muxOk then
                  if env.uploadOk then
                    ⟨.ok "uploaded", evs2 ++ [.mux, .upload], true, warning, some idxs⟩
                  else
                    ⟨.error (.pipeline "Upload failed"), evs2 ++ [.mux, .upload],
                     true, warning, some idxs⟩
                else
                  ⟨.error (.pipeline "Concatenation failed"), evs2 ++ [.mux],
                   true, warning, some idxs⟩
              else
                ⟨.error (.pipeline "Concatenation failed"), evs1, true, false, some idxs⟩
          else
            failJob (dl.1 ++ va.1 ++ ax.1 ++ [.audioConcat])
              "Falha ao concatenar áudios"

/-- The audio-codec parameters of an ffmpeg command: the `-c:a` value
and, when re-encoding, the `-b:a` / `-ar` / `-ac` settings. -/
structure AudioCmdSpec where
  audioCodec : String
  audioBitrate : Option String
  sampleRate : Option Nat
  channels : Option Nat
deriving DecidableEq, Repr

/-- Whether the command re-encodes audio (anything but `-c:a copy`). -/
def AudioCmdSpec.isReencode (c : AudioCmdSpec) : Bool :=
  c.audioCodec != "copy"

/-- ETAPA 1.5 extraction command of `src/server.js` (line 427):
`ffmpeg -i video-i -vn -c:a copy -y audio-i.aac` — a stream copy
preserving the original audio codec of the input. -/
def audioExtractCmd : AudioCmdSpec := ⟨"copy", none, none, none⟩

/-- ETAPA 1.5 concatenation command of `src/server.js` (line 445):
`ffmpeg -f concat -safe 0 -i audio-concat.txt -c copy -y final-audio.aac`. -/
def audioConcatCmd : AudioCmdSpec := ⟨"copy", none, none, none⟩

/-- Rev1 extraction command (`src/unnamed/part_001` line 149):
`-vn -c:a aac -b:a 128k -ar 48000 -ac 2`. -/
def audioExtractCmdRev1 : AudioCmdSpec := ⟨"aac", some "128k", some 48000, some 2⟩

/-- Rev1 audio concatenation (`src/unnamed/part_001` line 156):
`-f concat -safe 0 -i audios.txt -c copy`. -/
def audioConcatCmdRev1 : AudioCmdSpec := ⟨"copy", none, none, none⟩

/-- Rev2 extraction command (`src/unnamed/part_002` line 396):
`-vn -c:a aac -b:a 128k -ar 48000 -ac 2`. -/
def audioExtractCmdRev2 : AudioCmdSpec := ⟨"aac", some "128k", some 48000, some 2⟩

/-- Rev2 audio concatenation (`src/unnamed/part_002` line 415):
`-f concat ... -c:a aac -b:a 128k -ar 48000 -ac 2` — a re-encode, not a
codec-copy join. -/
def audioConcatCmdRev2 : AudioCmdSpec := ⟨"aac", some "128k", some 48000, some 2⟩

/-- The value of `extractedAudios` after the ETAPA 1.5 loop: the loop
pushes `audio-i.aac` for `i = 0, …, n-1` in ascending order, and the
concat list file enumerates exactly these entries in that order. -/
def extractedAudios (n : Nat) : List Nat := List.range n

/-- The video/audio codec parameters of the Rev1 corrective re-encode
pass (`-c:v libx264 ... -crf 28 -c:a copy`). -/
structure FinalPassCmd where
  videoCodec : String
  crf : Nat
  audioCodec : String
deriving DecidableEq, Repr

/-- Rev1 post-mux size correction (`src/unnamed/part_001` lines
195-207): if the muxed artifact exceeds the ceiling, re-encode once at
fixed CRF 28 with the audio stream copied, take the result as final
(`reencSize` is the oracle for the output size of that pass) and perform no
further size check. -/
def finalPassRev1 (muxedSize reencSize : Nat) : Nat × List FinalPassCmd :=
  if MAX_SIZE_BYTES < muxedSize then (reencSize, [⟨"libx264", 28, "copy"⟩])
  else (muxedSize, [])

/-- ETAPA 4 of the main revision (`src/server.js` lines 687-699): the
mux (`-c:v copy -c:a copy -shortest`) produces the final artifact, the
handler reads `finalStats` and proceeds directly to upload — there is
no post-mux size check and no corrective re-encode pass in this
revision, whatever the muxed size. -/
def finalPassMain (muxedSize : Nat) : Nat × List FinalPassCmd :=
  (muxedSize, [])

/-- Whether a `validateVideoFile` result is the `isValid: true` branch. -/
def ValidationResult.isValid : ValidationResult → Bool
  | .valid _ => true
  | .invalid _ => false

/-! ### Concrete environments used to evaluate the model -/

/-- Validation data of a source that is already in the canonical 9:16
profile (h264, 1080×1920, 30 fps). -/
def perfectVideo : ValidationData := ⟨"h264", 1080, 1920, some "30/1"⟩

/-- An environment in which every external command succeeds and the
concatenated artifact is already under the ceiling. -/
def envAllOk : Env where
  downloadOk := fun _ => true
  validation := fun _ => .valid perfectVideo
  audioExtractOk := fun _ => true
  audioConcatOk := true
  fastCopyOk := fun _ => true
  tierOk := fun _ _ => true
  concatOk := true
  videoOnlySize := 10 * 1048576
  enc := fun _ s => some (s / 2)
  muxOk := true
  muxedSize := 11 * 1048576
  uploadOk := true

/-- A two-URL request in the 9:16 format. -/
def reqTwo : ConcatRequest := ⟨["u0", "u1"], "out.mp4", some "9:16"⟩

/-- Like `envAllOk` but the second downloaded file fails validation. -/
def envInvalidInput : Env :=
  { envAllOk with
    validation := fun j =>
      if j = 1 then .invalid "Sem pacotes válidos" else .valid perfectVideo }

/-- Like `envAllOk` but the fast copy and every normalization tier
fail. -/
def envCascadeFail : Env :=
  { envAllOk with fastCopyOk := fun _ => false, tierOk := fun _ _ => false }

/-- Like `envAllOk` but the concatenated video-only artifact is 120 MB
and every compression attempt fails. -/
def envOversized : Env :=
  { envAllOk with videoOnlySize := 120 * 1048576, enc := fun _ _ => none }

/-- An encoder oracle whose first attempt succeeds but produces a file
larger than its input (60 MB from 50 MB); later attempts fail. -/
def encEnlarging : Nat → Nat → Option Nat :=
  fun a _ => if a = 1 then some (60 * 1048576) else none

/-! ### Stage lemmas -/

theorem downloadGo_all_ok (dl : Nat → Bool) (l : List Nat)
    (h : ∀ i ∈ l, dl i = true) :
    downloadGo dl l = (l.map Event.download, .ok ()) := by
  induction l with
  | nil => rfl
  | cons i rest ih =>
    have hi : dl i = true := h i (List.mem_cons_self i rest)
    simp [downloadGo, hi, ih (fun j hj => h j (List.mem_cons_of_mem _ hj))]

theorem audioExtractGo_all_ok (ok : Nat → Bool) (l : List Nat)
    (h : ∀ i ∈ l, ok i = true) :
    audioExtractGo ok l = (l.map Event.audioExtract, .ok ()) := by
  induction l with
  | nil => rfl
  | cons i rest ih =>
    have hi : ok i = true := h i (List.mem_cons_self i rest)
    simp [audioExtractGo, hi, ih (fun j hj => h j (List.mem_cons_of_mem _ hj))]

theorem validateGo_events_ingest (val : Nat → ValidationResult) (l : List Nat) :
    ∀ e ∈ (validateGo val l).1, e.isIngest = true := by
  induction l with
  | nil => simp [validateGo]
  | cons i rest ih =>
    cases hv : val i with
    | invalid err => simp [validateGo, hv, Event.isIngest]
    | valid d =>
      simp only [validateGo, hv, List.mem_cons]
      rintro e (rfl | he)
      · rfl
      · exact ih e he

theorem validateGo_error_of_invalid (val : Nat → ValidationResult)
    (l : List Nat) (i : Nat) (hi : i ∈ l)
    (hbad : (val i).isValid = false) :
    ∃ msg, (validateGo val l).2 = .error msg := by
  induction l with
  | nil => cases hi
  | cons j rest ih =>
    cases hv : val j with
    | invalid err =>
      exact ⟨"Vídeo está corrompido ou inválido: " ++ err, by simp [validateGo, hv]⟩
    | valid d =>
      rcases List.mem_cons.mp hi with rfl | hmem
      · rw [hv] at hbad; simp [ValidationResult.isValid] at hbad
      · obtain ⟨msg, hmsg⟩ := ih hmem
        refine ⟨msg, ?_⟩
        simp [validateGo, hv, hmsg, Except.map]

theorem validateGo_all_valid (val : Nat → ValidationResult) (l : List Nat)
    (h : ∀ i ∈ l, (val i).isValid = true) :
    ∃ vals, (validateGo val l).2 = .ok vals := by
  induction l with
  | nil => exact ⟨[], rfl⟩
  | cons i rest ih =>
    have hi := h i (List.mem_cons_self i rest)
    cases hv : val i with
    | invalid err => rw [hv] at hi; simp [ValidationResult.isValid] at hi
    | valid d =>
      obtain ⟨vs, hvs⟩ := ih (fun j hj => h j (List.mem_cons_of_mem _ hj))
      exact ⟨d :: vs, by simp [validateGo, hv, hvs, Except.map]⟩

theorem validateGo_ok_length (val : Nat → ValidationResult) (l : List Nat)
    (vals : List ValidationData)
    (h : (validateGo val l).2 = .ok vals) : vals.length = l.length := by
  induction l generalizing vals with
  | nil =>
    simp only [validateGo] at h
    cases h; rfl
  | cons i rest ih =>
    cases hv : val i with
    | invalid err => simp [validateGo, hv] at h
    | valid d =>
      simp only [validateGo, hv] at h
      cases hr : (validateGo val rest).2 with
      | error e => rw [hr] at h; simp [Except.map] at h
      | ok vs =>
        rw [hr] at h
        simp only [Except.map, Except.ok.injEq] at h
        subst h
        simp [ih vs hr]

theorem normalizeVideoWithRetries_isOk (ok : Nat → Bool) (i : Nat) :
    (normalizeVideoWithRetries ok i).2.isOk = (ok 0 || ok 1 || ok 2) := by
  cases h0 : ok 0 <;> cases h1 : ok 1 <;> cases h2 : ok 2 <;>
    simp [normalizeVideoWithRetries, normalizationAttempts, normalizeGo,
      h0, h1, h2, Except.isOk, Except.toBool]

theorem normalizeVideoWithRetries_error (ok : Nat → Bool) (i : Nat)
    (h0 : ok 0 = false) (h1 : ok 1 = false) (h2 : ok 2 = false) :
    (normalizeVideoWithRetries ok i).2 =
      .error "Todas as 3 tentativas de normalização falharam" := by
  simp [normalizeVideoWithRetries, normalizationAttempts, normalizeGo, h0, h1, h2]

theorem normalizeVideoWithRetries_all_tiers_tried (ok : Nat → Bool) (i : Nat)
    (h0 : ok 0 = false) (h1 : ok 1 = false) :
    (normalizeVideoWithRetries ok i).1 =
      [.normalize i 0, .normalize i 1, .normalize i 2] := by
  cases h2 : ok 2 <;>
    simp [normalizeVideoWithRetries, normalizationAttempts, normalizeGo, h0, h1, h2]

theorem processOneVideo_ok (env : Env) (t : TargetDimensions)
    (v : ValidationData) (i : Nat)
    (hfc : env.fastCopyOk i = true) (ht : env.tierOk i 0 = true) :
    ∃ s, (processOneVideo env t v i).2 = .ok s := by
  by_cases hn : shouldNormalizeVideo v t
  · exact ⟨"Normalização Rápida", by
      simp [processOneVideo, hn, normalizeVideoWithRetries,
        normalizationAttempts, normalizeGo, ht]⟩
  · exact ⟨"Fast Stream Copy", by simp [processOneVideo, hn, hfc]⟩

theorem processOneVideo_fail (env : Env) (t : TargetDimensions)
    (v : ValidationData) (i : Nat)
    (hfc : env.fastCopyOk i = false) (ht : ∀ k, env.tierOk i k = false) :
    (processOneVideo env t v i).2 =
      .error "Todas as 3 tentativas de normalização falharam" := by
  have hn := normalizeVideoWithRetries_error (env.tierOk i) i (ht 0) (ht 1) (ht 2)
  by_cases hd : shouldNormalizeVideo v t <;> simp [processOneVideo, hd, hfc, hn]

theorem processOneVideoJs_ok (env : Env) (t : TargetLookup)
    (v : ValidationData) (i : Nat)
    (hfc : env.fastCopyOk i = true) (ht : env.tierOk i 0 = true) :
    ∃ s, (processOneVideoJs env t v i).2 = .ok s := by
  cases t with
  | profile dims => exact processOneVideo_ok env dims v i hfc ht
  | prototypeMember k =>
    exact ⟨"Normalização Rápida", by
      simp [processOneVideoJs, normalizeVideoWithRetries,
        normalizationAttempts, normalizeGo, ht]⟩

theorem processOneVideoJs_fail (env : Env) (t : TargetLookup)
    (v : ValidationData) (i : Nat)
    (hfc : env.fastCopyOk i = false) (ht : ∀ k, env.tierOk i k = false) :
    (processOneVideoJs env t v i).2 =
      .error "Todas as 3 tentativas de normalização falharam" := by
  cases t with
  | profile dims => exact processOneVideo_fail env dims v i hfc ht
  | prototypeMember k =>
    simpa [processOneVideoJs] using
      normalizeVideoWithRetries_error (env.tierOk i) i (ht 0) (ht 1) (ht 2)

theorem processVideosGo_ok_map (env : Env) (t : TargetLookup)
    (l : List (Nat × ValidationData)) (idxs : List Nat)
    (h : (processVideosGo env t l).2 = .ok idxs) : idxs = l.map Prod.fst := by
  induction l generalizing idxs with
  | nil =>
    simp only [processVideosGo] at h
    cases h; rfl
  | cons p rest ih =>
    obtain ⟨i, v⟩ := p
    cases hp : (processOneVideoJs env t v i).2 with
    | error e => simp [processVideosGo, hp] at h
    | ok s =>
      simp only [processVideosGo, hp] at h
      cases hq : (processVideosGo env t rest).2 with
      | error e => rw [hq] at h; simp [Except.map] at h
      | ok vs =>
        rw [hq] at h
        simp only [Except.map, Except.ok.injEq] at h
        subst h
        simp [ih vs hq]

theorem processVideosGo_all_ok (env : Env) (t : TargetLookup)
    (l : List (Nat × ValidationData))
    (hfc : ∀ i, env.fastCopyOk i = true) (ht : ∀ i k, env.tierOk i k = true) :
    (processVideosGo env t l).2 = .ok (l.map Prod.fst) := by
  induction l with
  | nil => rfl
  | cons p rest ih =>
    obtain ⟨i, v⟩ := p
    obtain ⟨s, hs⟩ := processOneVideoJs_ok env t v i (hfc i) (ht i 0)
    simp [processVideosGo, hs, ih, Except.map]

theorem processVideosGo_head_fail (env : Env) (t : TargetLookup)
    (i : Nat) (v : ValidationData) (rest : List (Nat × ValidationData))
    (hfc : env.fastCopyOk i = false) (ht : ∀ k, env.tierOk i k = false) :
    (processVideosGo env t ((i, v) :: rest)).2 =
      .error "Todas as 3 tentativas de normalização falharam" := by
  simp [processVideosGo, processOneVideoJs_fail env t v i hfc ht]

theorem chooseCrfFirst_le (size : Nat) : chooseCrfFirst size ≤ MAX_CRF := by
  unfold chooseCrfFirst MAX_CRF
  split_ifs <;> omega

theorem compressLoopGo_crf_le (enc : Nat → Nat → Option Nat) :
    ∀ fuel size crf attempt working,
      ∀ r ∈ (compressLoopGo enc size crf attempt working fuel).attempts,
        r.crf ≤ MAX_CRF := by
  intro fuel
  induction fuel with
  | zero => intro size crf attempt working; simp [compressLoopGo]
  | succ f ih =>
    intro size crf attempt working
    simp only [compressLoopGo]
    split
    · simp
    · split
      · simp
      · have hc : (if attempt + 1 = 1 then chooseCrfFirst size
            else min (crf + 3) MAX_CRF) ≤ MAX_CRF := by
          split
          · exact chooseCrfFirst_le size
          · exact min_le_right _ _
        cases he : enc (attempt + 1) size with
        | none =>
          simp only [he, List.mem_cons]
          rintro r (rfl | hr)
          · exact hc
          · exact ih _ _ _ _ r hr
        | some newSize =>
          simp only [he, List.mem_cons]
          rintro r (rfl | hr)
          · exact hc
          · exact ih _ _ _ _ r hr

theorem compressLoopGo_length_le (enc : Nat → Nat → Option Nat) :
    ∀ fuel size crf attempt working,
      (compressLoopGo enc size crf attempt working fuel).attempts.length ≤ fuel := by
  intro fuel
  induction fuel with
  | zero => intro size crf attempt working; simp [compressLoopGo]
  | succ f ih =>
    intro size crf attempt working
    simp only [compressLoopGo]
    split
    · simp
    · split
      · simp
      · cases he : enc (attempt + 1) size with
        | none => simpa [he] using ih _ _ _ _
        | some newSize => simpa [he] using ih _ _ _ _

theorem compressLoopGo_exit (enc : Nat → Nat → Option Nat) :
    ∀ fuel size crf attempt working,
      (compressLoopGo enc size crf attempt working fuel).finalSize ≤ MAX_SIZE_BYTES ∨
      (compressLoopGo enc size crf attempt working fuel).attempts.length = fuel ∨
      MAX_CRF < (compressLoopGo enc size crf attempt working fuel).finalCrf := by
  intro fuel
  induction fuel with
  | zero => intro size crf attempt working; simp [compressLoopGo]
  | succ f ih =>
    intro size crf attempt working
    simp only [compressLoopGo]
    split
    · left; assumption
    · split
      · right; right; assumption
      · cases he : enc (attempt + 1) size with
        | none =>
          simp only [he]
          rcases ih size ((if attempt + 1 = 1 then chooseCrfFirst size
              else min (crf + 3) MAX_CRF)) (attempt + 1) working with h | h | h
          · left; exact h
          · right; left; simp only [List.length_cons, h]
          · right; right; exact h
        | some newSize =>
          simp only [he]
          rcases ih newSize ((if attempt + 1 = 1 then chooseCrfFirst size
              else min (crf + 3) MAX_CRF)) (attempt + 1) (attempt + 1) with h | h | h
          · left; exact h
          · right; left; simp only [List.length_cons, h]
          · right; right; exact h

theorem compressLoopGo_failure_frame (enc : Nat → Nat → Option Nat) :
    ∀ fuel size crf attempt working,
      ∀ r ∈ (compressLoopGo enc size crf attempt working fuel).attempts,
        r.result = none →
          r.sizeAfter = r.sizeBefore ∧ r.workingAfter = r.workingBefore := by
  intro fuel
  induction fuel with
  | zero => intro size crf attempt working; simp [compressLoopGo]
  | succ f ih =>
    intro size crf attempt working
    simp only [compressLoopGo]
    split
    · simp
    · split
      · simp
      · cases he : enc (attempt + 1) size with
        | none =>
          simp only [he, List.mem_cons]
          rintro r (rfl | hr)
          · exact fun _ => ⟨rfl, rfl⟩
          · exact ih _ _ _ _ r hr
        | some newSize =>
          simp only [he, List.mem_cons]
          rintro r (rfl | hr)
          · intro hnone; cases hnone
          · exact ih _ _ _ _ r hr

theorem compressLoopGo_chain (enc : Nat → Nat → Option Nat) :
    ∀ fuel size crf attempt working,
      List.Chain' (fun a b => b.sizeBefore = a.sizeAfter)
        (compressLoopGo enc size crf attempt working fuel).attempts ∧
      ∀ r ∈ (compressLoopGo enc size crf attempt working fuel).attempts.head?,
        r.sizeBefore = size := by
  intro fuel
  induction fuel with
  | zero => intro size crf attempt working; simp [compressLoopGo]
  | succ f ih =>
    intro size crf attempt working
    simp only [compressLoopGo]
    split
    · simp
    · split
      · simp
      · cases he : enc (attempt + 1) size with
        | none =>
          simp only [he]
          obtain ⟨hch, hhd⟩ := ih size ((if attempt + 1 = 1 then chooseCrfFirst size
              else min (crf + 3) MAX_CRF)) (attempt + 1) working
          constructor
          · exact List.chain'_cons'.mpr ⟨fun b hb => hhd b hb, hch⟩
          · simp
        | some newSize =>
          simp only [he]
          obtain ⟨hch, hhd⟩ := ih newSize ((if attempt + 1 = 1 then chooseCrfFirst size
              else min (crf + 3) MAX_CRF)) (attempt + 1) (attempt + 1)
          constructor
          · exact List.chain'_cons'.mpr ⟨fun b hb => hhd b hb, hch⟩
          · simp

theorem compressLoopGo_mono (enc : Nat → Nat → Option Nat)
    (Henc : ∀ a s s', enc a s = some s' → s' ≤ s) :
    ∀ fuel size crf attempt working,
      ∀ r ∈ (compressLoopGo enc size crf attempt working fuel).attempts,
        r.sizeAfter ≤ r.sizeBefore := by
  intro fuel
  induction fuel with
  | zero => intro size crf attempt working; simp [compressLoopGo]
  | succ f ih =>
    intro size crf attempt working
    simp only [compressLoopGo]
    split
    · simp
    · split
      · simp
      · cases he : enc (attempt + 1) size with
        | none =>
          simp only [he, List.mem_cons]
          rintro r (rfl | hr)
          · exact le_refl _
          · exact ih _ _ _ _ r hr
        | some newSize =>
          simp only [he, List.mem_cons]
          rintro r (rfl | hr)
          · exact Henc _ _ _ he
          · exact ih _ _ _ _ r hr

theorem compressLoopGo_final_le (enc : Nat → Nat → Option Nat)
    (Henc : ∀ a s s', enc a s = some s' → s' ≤ s) :
    ∀ fuel size crf attempt working,
      (compressLoopGo enc size crf attempt working fuel).finalSize ≤ size := by
  intro fuel
  induction fuel with
  | zero => intro size crf attempt working; simp [compressLoopGo]
  | succ f ih =>
    intro size crf attempt working
    simp only [compressLoopGo]
    split
    · simp
    · split
      · simp
      · cases he : enc (attempt + 1) size with
        | none => simpa [he] using ih _ _ _ _
        | some newSize =>
          simp only [he]
          exact le_trans (ih _ _ _ _) (Henc _ _ _ he)

theorem validateGo_const (val : Nat → ValidationResult) (v : ValidationData)
    (l : List Nat) (h : ∀ j ∈ l, val j = .valid v) :
    (validateGo val l).2 = .ok (l.map fun _ => v) := by
  induction l with
  | nil => rfl
  | cons i rest ih =>
    have hi := h i (List.mem_cons_self i rest)
    simp [validateGo, hi, ih (fun j hj => h j (List.mem_cons_of_mem _ hj)),
      Except.map]

theorem processVideosGo_fail_all (env : Env) (t : TargetLookup)
    (l : List (Nat × ValidationData)) (hne : l ≠ [])
    (hfc : ∀ i, env.fastCopyOk i = false) (ht : ∀ i k, env.tierOk i k = false) :
    (processVideosGo env t l).2 =
      .error "Todas as 3 tentativas de normalização falharam" := by
  cases l with
  | nil => exact absurd rfl hne
  | cons p rest =>
    obtain ⟨i, v⟩ := p
    exact processVideosGo_head_fail env t i v rest (hfc i) (ht i)

/-! ### Claim theorems -/

/-- C2 (counterexample): the `src/server.js` classifier approves the
fast path for an h264 1080×1920 video whose frame-rate expression is
`"60/1"`, although `"60/1"` is not an exact textual representation of
the 30 fps target — so "true only when … frame-rate all match the
target exactly" fails on the code. -/
theorem shouldNormalizeVideo_60fps_fast_path :
    shouldNormalizeVideo ⟨"h264", 1080, 1920, some "60/1"⟩ ⟨1080, 1920⟩ = false ∧
    specFpsMatchesTargetExactly (some "60/1") = false :=
  ⟨rfl, rfl⟩

/-- C2 (amended): the fast-path classifier is a pure, deterministic
function of the `(validation, target)` pair, and it approves the fast
path (returns `false` = "no normalization needed") iff the codec is
exactly h264, the width and height exactly equal those of the target, and the
frame-rate expression lies in the enumerated set — `{"30/1", "30",
"60/1"}` in `src/server.js`, and `{"30/1", "30"}` in the Rev1
revision.  Codec, width and height must match the target exactly; the
frame rate may also be the tolerated higher rate `"60/1"`. -/
theorem shouldNormalizeVideo_spec (v : ValidationData) (t : TargetDimensions) :
    (∀ v' t', v = v' → t = t' →
      shouldNormalizeVideo v t = shouldNormalizeVideo v' t') ∧
    (shouldNormalizeVideo v t = false ↔
      (v.codec = "h264" ∧ v.width = t.width ∧ v.height = t.height ∧
        (v.fps = some "30/1" ∨ v.fps = some "30" ∨ v.fps = some "60/1"))) ∧
    (shouldNormalizeVideoRev1 v t = false ↔
      (v.codec = "h264" ∧ v.width = t.width ∧ v.height = t.height ∧
        (v.fps = some "30/1" ∨ v.fps = some "30"))) := by
  refine ⟨fun v' t' hv ht => by rw [hv, ht], ?_, ?_⟩ <;>
  · obtain ⟨c, w, h, fps⟩ := v
    cases fps with
    | none =>
      simp [shouldNormalizeVideo, shouldNormalizeVideoRev1]
    | some f =>
      simp [shouldNormalizeVideo, shouldNormalizeVideoRev1, and_assoc]
      tauto

/-- C2 (witness): the amended characterization applied to a concrete
already-canonical video. -/
theorem shouldNormalizeVideo_spec_witness :
    shouldNormalizeVideo ⟨"h264", 1080, 1920, some "30"⟩ ⟨1080, 1920⟩ = false :=
  ((shouldNormalizeVideo_spec ⟨"h264", 1080, 1920, some "30"⟩ ⟨1080, 1920⟩).2.1).mpr
    ⟨rfl, rfl, rfl, Or.inr (Or.inl rfl)⟩

/-- C3 (counterexample): on a 50 MB input, an encoder whose first
attempt succeeds but emits 60 MB makes the loop record a size strictly
larger after a successful attempt — the loop does not enforce the
non-increase itself. -/
theorem compress_size_can_grow :
    ((compressStage encEnlarging (50 * 1048576)).attempts.head?.map
      (fun r => (r.result, r.sizeBefore, r.sizeAfter))) =
      some (some (60 * 1048576), 50 * 1048576, 60 * 1048576) ∧
    50 * 1048576 < 60 * 1048576 := by
  constructor
  · rfl
  · omega

/-- C3 (amended): a failed encode attempt leaves the recorded working
size and the working file unchanged; consecutive iterations chain their
recorded sizes; and whenever every successful encode emits a file no
larger than its input, the recorded size is non-increasing across all
attempts and the final size never exceeds the starting size.  (The loop
records whatever size the encoder returns, so the non-increase holds
only under that assumption about the encoder.) -/
theorem compress_loop_size_accounting (enc : Nat → Nat → Option Nat) (size0 : Nat) :
    (∀ r ∈ (compressStage enc size0).attempts, r.result = none →
      r.sizeAfter = r.sizeBefore ∧ r.workingAfter = r.workingBefore) ∧
    List.Chain' (fun a b => b.sizeBefore = a.sizeAfter)
      (compressStage enc size0).attempts ∧
    ((∀ a s s', enc a s = some s' → s' ≤ s) →
      (∀ r ∈ (compressStage enc size0).attempts, r.sizeAfter ≤ r.sizeBefore) ∧
      (compressStage enc size0).finalSize ≤ size0) := by
  by_cases h : MAX_SIZE_BYTES < size0
  · simp only [compressStage, if_pos h]
    exact ⟨compressLoopGo_failure_frame enc _ _ _ _ _,
      (compressLoopGo_chain enc _ _ _ _ _).1,
      fun Henc => ⟨compressLoopGo_mono enc Henc _ _ _ _ _,
        compressLoopGo_final_le enc Henc _ _ _ _ _⟩⟩
  · simp only [compressStage, if_neg h]
    exact ⟨by simp, by simp, fun _ => ⟨by simp, le_refl _⟩⟩

/-- C3 (witness): the accounting theorem applied to a halving encoder
on a 120 MB input, discharging the non-enlarging hypothesis. -/
theorem compress_loop_size_accounting_witness :
    (compressStage (fun _ s => some (s / 2)) (120 * 1048576)).finalSize ≤
      120 * 1048576 :=
  ((compress_loop_size_accounting (fun _ s => some (s / 2)) (120 * 1048576)).2.2
    (fun _ s s' hs => by
      cases hs
      exact Nat.div_le_self s 2)).2

/-- C5 (counterexample): in the main revision (`src/server.js`, ETAPA
4) there is no post-mux size check at all — with a 50 MB muxed
artifact, above the 49 MB ceiling, zero corrective passes are applied,
not exactly one. -/
theorem finalPassMain_no_corrective_pass :
    MAX_SIZE_BYTES < 50 * 1048576 ∧
    (finalPassMain (50 * 1048576)).2 = [] ∧
    ¬ (finalPassMain (50 * 1048576)).2.length = 1 :=
  ⟨by decide, rfl, by decide⟩

/-- C5 (amended): after muxing, the main revision (`src/server.js`)
applies no corrective re-encode pass at all — the muxed artifact is
final whatever its size; only the Rev1 revision
(`src/unnamed/part_001`) applies exactly one corrective re-encode pass
(video at fixed conservative CRF 28, audio stream copied) when the
muxed artifact exceeds the ceiling, none otherwise, and takes the
output of that pass as final with no further iteration regardless of
its size. -/
theorem finalPass_single_pass_policy (m r : Nat) :
    (finalPassMain m).2 = [] ∧
    (finalPassMain m).1 = m ∧
    (finalPassRev1 m r).2 =
      (if MAX_SIZE_BYTES < m then [⟨"libx264", 28, "copy"⟩] else []) ∧
    (finalPassRev1 m r).2.length ≤ 1 ∧
    (finalPassRev1 m r).1 = (if MAX_SIZE_BYTES < m then r else m) := by
  refine ⟨rfl, rfl, ?_, ?_, ?_⟩ <;> (unfold finalPassRev1; split <;> simp)

/-- C6 (counterexample): the ETAPA 1.5 extraction command of
`src/server.js` uses `-c:a copy` — it does not re-encode the audio
into a canonical format. -/
theorem audioExtractCmd_no_reencode :
    audioExtractCmd.isReencode = false ∧ audioExtractCmd.audioCodec = "copy" :=
  ⟨rfl, rfl⟩

/-- C6 (amended): in `src/server.js` the audio pipeline extracts the
audio of each input with a lossless stream copy (preserving its original
codec, no re-encode) and concatenates the per-video tracks with a
codec-copy container join, in input order; it is the Rev1 revision that
re-encodes extracted audio to the canonical AAC 128k/48kHz/stereo
format before its codec-copy join, while Rev2 re-encodes at
concatenation as well. -/
theorem audio_pipeline_codec_policy :
    audioExtractCmd.audioCodec = "copy" ∧
    audioConcatCmd.audioCodec = "copy" ∧
    audioExtractCmdRev1 = ⟨"aac", some "128k", some 48000, some 2⟩ ∧
    audioConcatCmdRev1.audioCodec = "copy" ∧
    audioConcatCmdRev2.isReencode = true ∧
    (∀ n, extractedAudios n = List.range n) ∧
    (∀ n, (audioExtractGo (fun _ => true) (List.range n)).1 =
      (List.range n).map Event.audioExtract) := by
  refine ⟨rfl, rfl, rfl, rfl, rfl, fun n => rfl, fun n => ?_⟩
  rw [audioExtractGo_all_ok (fun _ => true) (List.range n) (fun _ _ => rfl)]

/-- C7: the compression loop always terminates — it runs at most
`MAX_ATTEMPTS = 4` iterations (counting failed and successful attempts
alike), the CRF of every attempt is at most `MAX_CRF = 35`, and on exit
either the size is at or under the ceiling, or the attempt budget is
exhausted, or the CRF variable exceeds the ceiling. -/
theorem compress_loop_terminates (enc : Nat → Nat → Option Nat) (size0 : Nat) :
    (compressStage enc size0).attempts.length ≤ MAX_ATTEMPTS ∧
    (∀ r ∈ (compressStage enc size0).attempts, r.crf ≤ MAX_CRF) ∧
    ((compressStage enc size0).finalSize ≤ MAX_SIZE_BYTES ∨
      (compressStage enc size0).attempts.length = MAX_ATTEMPTS ∨
      MAX_CRF < (compressStage enc size0).finalCrf) := by
  by_cases h : MAX_SIZE_BYTES < size0
  · simp only [compressStage, if_pos h]
    exact ⟨compressLoopGo_length_le enc _ _ _ _ _,
      compressLoopGo_crf_le enc _ _ _ _ _,
      compressLoopGo_exit enc _ _ _ _ _⟩
  · simp only [compressStage, if_neg h]
    exact ⟨by simp, by simp, Or.inl (by omega)⟩

/-- C7 (witness): the bound applied to an always-failing encoder on a
120 MB input, together with the CRF bound at the first recorded
attempt. -/
theorem compress_loop_terminates_witness :
    (compressStage (fun _ _ => none) (120 * 1048576)).attempts.length ≤
      MAX_ATTEMPTS ∧
    (⟨1, 30, 120 * 1048576, 120 * 1048576, 0, 0, none⟩ : CompressAttemptRec).crf ≤
      MAX_CRF :=
  ⟨(compress_loop_terminates (fun _ _ => none) (120 * 1048576)).1,
   (compress_loop_terminates (fun _ _ => none) (120 * 1048576)).2.1
     ⟨1, 30, 120 * 1048576, 120 * 1048576, 0, 0, none⟩ (by decide)⟩

/-- C1: if every download succeeded but any one of the inputs fails
validation, the job aborts with a pipeline error before any transcoding
command is issued (the trace holds only download and probe events, so
no output artifact is ever produced, and nothing was fed to the
concatenator), and the scratch directory no longer exists afterward. -/
theorem validation_gate_all_or_nothing (env : Env) (req : ConcatRequest)
    (hn : 2 ≤ req.videoUrls.length)
    (hdl : ∀ i, env.downloadOk i = true)
    (i : Nat) (hi : i < req.videoUrls.length)
    (hbad : (env.validation i).isValid = false) :
    (∃ msg, (runJob env req).response = .error (.pipeline msg)) ∧
    (runJob env req).tempDirRemoved = true ∧
    (runJob env req).events.all Event.isIngest = true ∧
    (runJob env req).concatInput = none := by
  have hlt : ¬ req.videoUrls.length < 2 := by omega
  have hdlr := downloadGo_all_ok env.downloadOk (List.range req.videoUrls.length)
    (fun j _ => hdl j)
  obtain ⟨msg, hmsg⟩ := validateGo_error_of_invalid env.validation
    (List.range req.videoUrls.length) i (List.mem_range.mpr hi) hbad
  have hing := validateGo_events_ingest env.validation (List.range req.videoUrls.length)
  unfold runJob
  rw [if_neg hlt]
  simp only [hdlr, hmsg, failJob]
  refine ⟨⟨msg, ?_⟩, ?_, ?_, ?_⟩ <;> try trivial
  simp only [List.all_append, Bool.and_eq_true, List.all_eq_true]
  constructor
  · intro e he
    obtain ⟨j, _, rfl⟩ := List.mem_map.mp he
    rfl
  · intro e he
    exact hing e he

/-- C1 (witness): the gate applied to a concrete two-video job whose
second input fails validation. -/
theorem validation_gate_all_or_nothing_witness :
    (runJob envInvalidInput reqTwo).tempDirRemoved = true ∧
    (runJob envInvalidInput reqTwo).events.all Event.isIngest = true :=
  ⟨(validation_gate_all_or_nothing envInvalidInput reqTwo (by decide)
      (fun _ => rfl) 1 (by decide) (by decide)).2.1,
   (validation_gate_all_or_nothing envInvalidInput reqTwo (by decide)
      (fun _ => rfl) 1 (by decide) (by decide)).2.2.1⟩

/-- C4: whenever a job reaches the video concatenation step (the
handler recorded a list fed to the concatenator), that list is exactly
`normalized-0 … normalized-(n-1)` for the `n` input URLs — the same
length and order as the input list, regardless of which per-video path
produced each output. -/
theorem concat_input_matches_input_order (env : Env) (req : ConcatRequest)
    (idxs : List Nat)
    (h : (runJob env req).concatInput = some idxs) :
    idxs = List.range req.videoUrls.length := by
  unfold runJob at h
  by_cases hlt : req.videoUrls.length < 2
  · rw [if_pos hlt] at h
    cases h
  · rw [if_neg hlt] at h
    cases hdl2 : (downloadGo env.downloadOk (List.range req.videoUrls.length)).2 with
    | error e =>
      simp only [hdl2, failJob] at h
      exact Option.noConfusion h
    | ok u =>
      simp only [hdl2] at h
      cases hval2 : (validateGo env.validation (List.range req.videoUrls.length)).2 with
      | error e =>
        simp only [hval2, failJob] at h
        exact Option.noConfusion h
      | ok vals =>
        simp only [hval2] at h
        cases hax2 : (audioExtractGo env.audioExtractOk (List.range req.videoUrls.length)).2 with
        | error e =>
          simp only [hax2, failJob] at h
          exact Option.noConfusion h
        | ok u2 =>
          simp only [hax2] at h
          cases hac : env.audioConcatOk with
          | false =>
            simp only [hac, Bool.false_eq_true, if_false, failJob] at h
            exact Option.noConfusion h
          | true =>
            simp only [hac, if_true] at h
            cases hpv : (processVideosGo env (formatDimensions req.format)
                ((List.range req.videoUrls.length).zip vals)).2 with
            | error e =>
              simp only [hpv, failJob] at h
              exact Option.noConfusion h
            | ok idxs0 =>
              simp only [hpv] at h
              have hmap := processVideosGo_ok_map env (formatDimensions req.format)
                ((List.range req.videoUrls.length).zip vals) idxs0 hpv
              have hlen := validateGo_ok_length env.validation
                (List.range req.videoUrls.length) vals hval2
              have hzip : ((List.range req.videoUrls.length).zip vals).map Prod.fst =
                  List.range req.videoUrls.length :=
                List.map_fst_zip _ _ (by simp [hlen])
              have hidxs : idxs = idxs0 := by
                split at h
                · split at h
                  · split at h
                    · simp at h; exact h.symm
                    · simp at h; exact h.symm
                  · simp at h; exact h.symm
                · simp at h; exact h.symm
              rw [hidxs, hmap, hzip]

/-- C4 (witness): the order theorem applied to the concrete all-ok
two-video job, whose recorded concatenator feed is `[0, 1]`. -/
theorem concat_input_matches_input_order_witness :
    [0, 1] = List.range reqTwo.videoUrls.length :=
  concat_input_matches_input_order envAllOk reqTwo [0, 1] rfl

/-- C8: when every other stage succeeds but the compression loop ends
with the video-only artifact still over the ceiling, the job does not
fail — the oversize warning is recorded and the job proceeds through
muxing and upload to a successful response. -/
theorem oversized_after_exhaustion_nonfatal (env : Env) (req : ConcatRequest)
    (hn : 2 ≤ req.videoUrls.length)
    (hdl : ∀ i, env.downloadOk i = true)
    (hval : ∀ i, (env.validation i).isValid = true)
    (hax : ∀ i, env.audioExtractOk i = true)
    (hac : env.audioConcatOk = true)
    (hfc : ∀ i, env.fastCopyOk i = true)
    (ht : ∀ i k, env.tierOk i k = true)
    (hcc : env.concatOk = true)
    (hsz : 1000 ≤ env.videoOnlySize)
    (hover : MAX_SIZE_BYTES < (compressStage env.enc env.videoOnlySize).finalSize)
    (hmux : env.muxOk = true) (hup : env.uploadOk = true) :
    (runJob env req).response = .ok "uploaded" ∧
    (runJob env req).warningOversized = true := by
  have hlt : ¬ req.videoUrls.length < 2 := by omega
  have hdlr := downloadGo_all_ok env.downloadOk (List.range req.videoUrls.length)
    (fun j _ => hdl j)
  obtain ⟨vals, hvals⟩ := validateGo_all_valid env.validation
    (List.range req.videoUrls.length) (fun j _ => hval j)
  have haxr := audioExtractGo_all_ok env.audioExtractOk
    (List.range req.videoUrls.length) (fun j _ => hax j)
  have hpv := processVideosGo_all_ok env (formatDimensions req.format)
    ((List.range req.videoUrls.length).zip vals) hfc ht
  have hsize0 : MAX_SIZE_BYTES < env.videoOnlySize := by
    by_contra hle
    have hfix : (compressStage env.enc env.videoOnlySize).finalSize =
        env.videoOnlySize := by
      unfold compressStage
      rw [if_neg hle]
    omega
  unfold runJob
  rw [if_neg hlt]
  simp [hdlr, hvals, haxr, hac, hpv, hcc, hsz, hmux, hup, hsize0, hover]

/-- C8 (witness): the non-fatal-oversize theorem applied to the
concrete 120 MB job whose compression attempts all fail. -/
theorem oversized_after_exhaustion_nonfatal_witness :
    (runJob envOversized reqTwo).response = .ok "uploaded" ∧
    (runJob envOversized reqTwo).warningOversized = true :=
  oversized_after_exhaustion_nonfatal envOversized reqTwo (by decide)
    (fun _ => rfl) (fun _ => rfl) (fun _ => rfl) rfl (fun _ => rfl)
    (fun _ _ => rfl) rfl (by decide) (by decide) rfl rfl

/-- C9: for a fast-path-eligible video whose fast copy fails, the
failure is non-fatal — the handler runs the three-tier cascade for
that same video and its outcome becomes the outcome for the video; the
cascade succeeds iff some tier succeeds, tries the tiers in order
(all three commands are issued when the first two fail), and when every
tier fails for every video the whole job aborts with a pipeline error
(no partial-video skip). -/
theorem fast_path_failure_falls_back (env : Env) (req : ConcatRequest)
    (v : ValidationData) (t : TargetDimensions) (i : Nat)
    (helig : shouldNormalizeVideo v t = false)
    (hfc : env.fastCopyOk i = false) :
    ((processOneVideo env t v i).1 =
        .fastCopy i :: (normalizeVideoWithRetries (env.tierOk i) i).1 ∧
      (processOneVideo env t v i).2 =
        (normalizeVideoWithRetries (env.tierOk i) i).2) ∧
    ((normalizeVideoWithRetries (env.tierOk i) i).2.isOk =
      (env.tierOk i 0 || env.tierOk i 1 || env.tierOk i 2)) ∧
    (env.tierOk i 0 = false → env.tierOk i 1 = false →
      (normalizeVideoWithRetries (env.tierOk i) i).1 =
        [.normalize i 0, .normalize i 1, .normalize i 2]) ∧
    (2 ≤ req.videoUrls.length →
      (∀ j, env.downloadOk j = true) →
      (∀ j, env.validation j = .valid v) →
      (∀ j, env.audioExtractOk j = true) →
      env.audioConcatOk = true →
      (∀ j, env.fastCopyOk j = false) →
      (∀ j k, env.tierOk j k = false) →
      ∃ msg, (runJob env req).response = .error (.pipeline msg)) := by
  refine ⟨⟨by simp [processOneVideo, helig, hfc], by simp [processOneVideo, helig, hfc]⟩,
    normalizeVideoWithRetries_isOk (env.tierOk i) i,
    fun h0 h1 => normalizeVideoWithRetries_all_tiers_tried (env.tierOk i) i h0 h1,
    fun hn hdl hval hax hac hfcAll htAll => ?_⟩
  have hlt : ¬ req.videoUrls.length < 2 := by omega
  have hdlr := downloadGo_all_ok env.downloadOk (List.range req.videoUrls.length)
    (fun j _ => hdl j)
  have hvals := validateGo_const env.validation v
    (List.range req.videoUrls.length) (fun j _ => hval j)
  have haxr := audioExtractGo_all_ok env.audioExtractOk
    (List.range req.videoUrls.length) (fun j _ => hax j)
  have hne : (List.range req.videoUrls.length).zip
      ((List.range req.videoUrls.length).map fun _ => v) ≠ [] := by
    have hlen : ((List.range req.videoUrls.length).zip
        ((List.range req.videoUrls.length).map fun _ => v)).length =
        req.videoUrls.length := by
      simp
    intro hnil
    rw [hnil] at hlen
    simp at hlen
    omega
  have hpv := processVideosGo_fail_all env (formatDimensions req.format)
    ((List.range req.videoUrls.length).zip
      ((List.range req.videoUrls.length).map fun _ => v)) hne hfcAll htAll
  simp only [List.map_const', List.length_range] at hvals hpv
  refine ⟨"Todas as 3 tentativas de normalização falharam", ?_⟩
  unfold runJob
  rw [if_neg hlt]
  simp [hdlr, hvals, haxr, hac, hpv, failJob]

/-- C9 (witness): the fallback theorem applied to a concrete
already-canonical video in an environment where the fast copy and all
tiers fail, including the job-fatality conjunct. -/
theorem fast_path_failure_falls_back_witness :
    ∃ msg, (runJob envCascadeFail reqTwo).response = .error (.pipeline msg) :=
  (fast_path_failure_falls_back envCascadeFail reqTwo perfectVideo
      ⟨1080, 1920⟩ 0 rfl rfl).2.2.2 (by decide) (fun _ => rfl) (fun _ => rfl)
    (fun _ => rfl) rfl (fun _ => rfl) (fun _ _ => rfl)

theorem formatDimensions_not_enumerated (f : String)
    (h1 : f ≠ "9:16") (h2 : f ≠ "1:1") (h3 : f ≠ "16:9") :
    formatDimensions (some f) =
      (if f ∈ objectPrototypeKeys then .prototypeMember f
       else .profile ⟨1080, 1920⟩) := by
  unfold formatDimensions
  split <;> simp_all

/-- C10 (counterexample): for `format = "toString"` the bracket lookup
finds the inherited, truthy `Object.prototype.toString`, so the `||`
fallback never fires and the target is that member, not the 9:16
profile — refuting the claim that every unknown format falls back to
1080×1920. -/
theorem formatDimensions_toString_no_fallback :
    formatDimensions (some "toString") = .prototypeMember "toString" ∧
    formatDimensions (some "toString") ≠ .profile ⟨1080, 1920⟩ :=
  ⟨rfl, by decide⟩

/-- C10 (amended): a missing or unrecognized `format` is never
rejected — the only 400 rejection is a request with fewer than two
URLs — and the lookup falls back to the 9:16 profile (1080×1920) for
every non-enumerated format except the strings naming inherited
`Object.prototype` members (such as "toString", "constructor",
"__proto__"): for those the truthy inherited member is returned, the
fallback does not fire, and the target is not a profile. -/
theorem unknown_format_fallback_policy (env : Env) (req : ConcatRequest)
    (h1 : req.format ≠ some "9:16") (h2 : req.format ≠ some "1:1")
    (h3 : req.format ≠ some "16:9") :
    (formatDimensions req.format = .profile ⟨1080, 1920⟩ ∨
      ∃ f, req.format = some f ∧ f ∈ objectPrototypeKeys ∧
        formatDimensions req.format = .prototypeMember f) ∧
    ((∀ f, req.format = some f → f ∉ objectPrototypeKeys) →
      formatDimensions req.format = .profile ⟨1080, 1920⟩) ∧
    (2 ≤ req.videoUrls.length →
      (runJob env req).response ≠ .error .badRequest) := by
  refine ⟨?_, ?_, ?_⟩
  · cases hf : req.format with
    | none => left; rfl
    | some f =>
      have hne := formatDimensions_not_enumerated f
        (by rintro rfl; exact h1 hf) (by rintro rfl; exact h2 hf)
        (by rintro rfl; exact h3 hf)
      by_cases hp : f ∈ objectPrototypeKeys
      · exact Or.inr ⟨f, rfl, hp, by rw [hne, if_pos hp]⟩
      · exact Or.inl (by rw [hne, if_neg hp])
  · intro hall
    cases hf : req.format with
    | none => rfl
    | some f =>
      have hp := hall f hf
      have hne := formatDimensions_not_enumerated f
        (by rintro rfl; exact h1 hf) (by rintro rfl; exact h2 hf)
        (by rintro rfl; exact h3 hf)
      rw [hne, if_neg hp]
  · intro hn hbad
    have hlt : ¬ req.videoUrls.length < 2 := by omega
    unfold runJob at hbad
    rw [if_neg hlt] at hbad
    cases hdl2 : (downloadGo env.downloadOk (List.range req.videoUrls.length)).2 with
    | error e => simp [hdl2, failJob] at hbad
    | ok u =>
      simp only [hdl2] at hbad
      cases hval2 : (validateGo env.validation (List.range req.videoUrls.length)).2 with
      | error e => simp [hval2, failJob] at hbad
      | ok vals =>
        simp only [hval2] at hbad
        cases hax2 : (audioExtractGo env.audioExtractOk
            (List.range req.videoUrls.length)).2 with
        | error e => simp [hax2, failJob] at hbad
        | ok u2 =>
          simp only [hax2] at hbad
          cases hac : env.audioConcatOk with
          | false => simp [hac, failJob] at hbad
          | true =>
            simp only [hac, if_true] at hbad
            cases hpv : (processVideosGo env (formatDimensions req.format)
                ((List.range req.videoUrls.length).zip vals)).2 with
            | error e => simp [hpv, failJob] at hbad
            | ok idxs0 =>
              simp only [hpv] at hbad
              split at hbad
              · split at hbad
                · split at hbad
                  · simp at hbad
                  · simp at hbad
                · simp at hbad
              · simp at hbad

/-- C10 (witness): a two-URL request with the unknown, non-prototype
format "4:3" falls back to the 9:16 profile. -/
theorem unknown_format_fallback_policy_witness :
    formatDimensions (some "4:3") = .profile ⟨1080, 1920⟩ :=
  (unknown_format_fallback_policy envAllOk
      ⟨["u0", "u1"], "out.mp4", some "4:3"⟩ (by decide) (by decide)
      (by decide)).2.1
    (fun f hf => by
      have hfe : f = "4:3" := Option.some.inj hf.symm
      subst hfe
      decide)

end FfmpegServer
